import Mathlib

/-!
Shallow embedding of the financial-statement resolver of
`src/stock_analyzer(streamlit).py` (`get_financial_statements` and its inner
`try_one_year`), together with proofs of the specification's claims about it.

Modelling choices, each traceable to the source:
* A Disclosure Source response (`requests.get(...).json()`) is a
  `FetchOutcome`: either the request/JSON-decode raised (`exn`, the
  `except` branch at lines 185-187), or a JSON object whose `status` field
  and `list` field are modelled as `Option` values (`none` = key absent or,
  for `list`, not a JSON array, mirroring the `isinstance` test at line 189).
* A row of `res["list"]` is a `RawRow`: the two fields the resolver reads,
  each `Option String` (`none` = key absent in that row's object; pandas
  then fills `NaN`, which `astype(str)` renders as `"nan"`).
* A pandas DataFrame built from the row list has a column exactly when some
  row carries the key (`hasAcctCol` / `hasAmtCol` model `c in df.columns`).
* Python `str.strip()` is modelled over the ASCII whitespace characters;
  `str.replace(",", "")` removes every comma.
* Uncaught Python exceptions are `Except.error ()`: the `KeyError` that
  lines 196-197 raise when the kept columns miss `account_nm` or
  `thstrm_amount` is `StepResult.keyError`.
* Every function also reports the list of Disclosure Source calls it made,
  so call-count claims are statable.
-/

/-- The characters Python `str.strip()` removes (ASCII whitespace). -/
def pyIsSpace (c : Char) : Bool :=
  c == ' ' || c == '\t' || c == '\n' || c == '\r' || c == '\x0b' || c == '\x0c'

/-- Python `str.strip()` on a list of characters: drop leading and trailing
whitespace. -/
def pyStripL (l : List Char) : List Char :=
  ((l.dropWhile pyIsSpace).reverse.dropWhile pyIsSpace).reverse

/-- Python `str.strip()`. -/
def pyStrip (s : String) : String := ⟨pyStripL s.data⟩

/-- Python `str.replace(",", "")`: remove every comma. -/
def removeCommas (s : String) : String := ⟨s.data.filter (fun c => c != ',')⟩

/-- `astype(str)` on a cell that may be missing: a missing value is pandas
`NaN`, rendered `"nan"`. -/
def pyStrOfCell : Option String → String
  | none => "nan"
  | some s => s

/-- The amount normalization of line 197:
`.astype(str).str.replace(",", "").str.strip()`. -/
def normalize_amount (s : String) : String := pyStrip (removeCommas s)

/-- One element of the response's `list`, restricted to the two fields the
resolver reads; `none` models the key being absent from the row object. -/
structure RawRow where
  account_nm : Option String
  thstrm_amount : Option String
deriving DecidableEq

/-- Row normalization of lines 196-197: trim the account name, strip commas
from and trim the amount. -/
def normRow (r : RawRow) : String × String :=
  (pyStrip (pyStrOfCell r.account_nm), normalize_amount (pyStrOfCell r.thstrm_amount))

/-- Outcome of one Disclosure Source call as the resolver sees it. -/
inductive FetchOutcome where
  | exn
  | ok (status : Option String) (lst : Option (List RawRow))
deriving DecidableEq

/-- `c in df.columns` for `account_nm`: some row carries the key. -/
def hasAcctCol (l : List RawRow) : Bool := l.any (fun r => r.account_nm.isSome)

/-- `c in df.columns` for `thstrm_amount`: some row carries the key. -/
def hasAmtCol (l : List RawRow) : Bool := l.any (fun r => r.thstrm_amount.isSome)

/-- What the body of the inner loop (lines 179-203) does with one response. -/
inductive StepResult where
  | skip
  | adopt (rows : List (String × String))
  | keyError
deriving DecidableEq

/-- Lines 179-203 for a single `(fs_div, reprt_code)` attempt: a fetch
exception is swallowed (`continue`); a response failing the
status/list/non-empty test falls to the `else` and the loop continues; with
neither wanted column the `if not cols: continue` fires; with both columns
the normalized frame is adopted and returned; with exactly one column the
normalization of lines 196-197 reads a column the frame does not have and
raises `KeyError`, which no `except` catches. -/
def handle_response : FetchOutcome → StepResult
  | .exn => .skip
  | .ok status lst =>
    match lst with
    | none => .skip
    | some l =>
      if status == some "000" && !l.isEmpty then
        match hasAcctCol l, hasAmtCol l with
        | false, false => .skip
        | true, true => .adopt (l.map normRow)
        | true, false => .keyError
        | false, true => .keyError
      else
        .skip

/-- The nested loop of lines 170-203, flattened over the candidate list, also
reporting which candidates were actually fetched, in order. The first
component is `Except.ok (some rows)` on adoption (`return df`),
`Except.ok none` when all candidates are exhausted (`return None`), and
`Except.error ()` when the uncaught `KeyError` propagates. -/
def run_candidates (fetch : String → String → FetchOutcome) :
    List (String × String) →
      Except Unit (Option (List (String × String))) × List (String × String)
  | [] => (Except.ok none, [])
  | (d, c) :: rest =>
    match handle_response (fetch d c) with
    | .skip =>
      ((run_candidates fetch rest).1, (d, c) :: (run_candidates fetch rest).2)
    | .adopt rows => (Except.ok (some rows), [(d, c)])
    | .keyError => (Except.error (), [(d, c)])

/-- Lines 162-168: the per-year report-code priority list. `reprt_overrides`
is the dict, modelled as an association list; `reprt_overrides and year in
reprt_overrides` holds exactly when the lookup succeeds. -/
def reprt_codes_for (reprt_overrides : List (Nat × String))
    (current_year year : Nat) : List String :=
  match reprt_overrides.lookup year with
  | some rt => [rt]
  | none =>
    if year < current_year then ["11011", "11012", "11013", "11014"]
    else ["11014", "11013", "11012", "11011"]

/-- Lines 151-159: the `fs_div` attempt order chosen from `fs_mode`; any
unrecognized mode falls to the final `else`. -/
def fs_div_order_of (fs_mode : String) : List String :=
  if fs_mode == "CFS_ONLY" then ["CFS"]
  else if fs_mode == "OFS_ONLY" then ["OFS"]
  else if fs_mode == "AUTO_OFS_CFS" then ["OFS", "CFS"]
  else ["CFS", "OFS"]

/-- The candidate sequence of the nested loop at lines 170-171: scope
(`fs_div`) outer, report code inner. -/
def candidates (fs_div_order reprt_codes : List String) : List (String × String) :=
  fs_div_order.flatMap (fun d => reprt_codes.map (fun c => (d, c)))

/-- `try_one_year` (lines 161-203): run the candidates of one year against
the source. -/
def try_one_year (fetch : Nat → String → String → FetchOutcome)
    (reprt_overrides : List (Nat × String)) (fs_div_order : List String)
    (current_year year : Nat) :
    Except Unit (Option (List (String × String))) × List (String × String) :=
  run_candidates (fetch year)
    (candidates fs_div_order (reprt_codes_for reprt_overrides current_year year))

/-- A value of the returned `fs_data` dict: either the placeholder message
DataFrame of line 146 or a (possibly empty) two-column table. -/
inductive FSValue where
  | message (msg : String)
  | table (rows : List (String × String))
deriving DecidableEq

/-- Line 207: an adopted frame, or the empty two-column frame. -/
def year_entry : Option (List (String × String)) → FSValue
  | some rows => .table rows
  | none => .table []

/-- The loop of lines 205-207 over the year range. An uncaught error from any
year propagates (`Except.error`); the second component records every
Disclosure Source call made, tagged with its year. -/
def run_years (fetch : Nat → String → String → FetchOutcome)
    (reprt_overrides : List (Nat × String)) (fs_div_order : List String)
    (current_year : Nat) :
    List Nat → Except Unit (List (String × FSValue)) × List (Nat × String × String)
  | [] => (Except.ok [], [])
  | y :: rest =>
    match try_one_year fetch reprt_overrides fs_div_order current_year y with
    | (Except.error _, calls) => (Except.error (), calls.map (fun p => (y, p)))
    | (Except.ok df, calls) =>
      match run_years fetch reprt_overrides fs_div_order current_year rest with
      | (Except.error _, calls2) =>
        (Except.error (), calls.map (fun p => (y, p)) ++ calls2)
      | (Except.ok tl, calls2) =>
        (Except.ok ((toString y, year_entry df) :: tl),
         calls.map (fun p => (y, p)) ++ calls2)

/-- `get_financial_statements` (lines 129-208): the guard of lines 145-147
(empty string = falsy credential or corp code) returns the single-entry
message dict without any fetch; otherwise every year of
`range(current_year - 5, current_year + 1)` is resolved in order. -/
def get_financial_statements (api_key corp_code : String)
    (reprt_overrides : List (Nat × String)) (fs_mode : String)
    (fetch : Nat → String → String → FetchOutcome) (current_year : Nat) :
    Except Unit (List (String × FSValue)) × List (Nat × String × String) :=
  if api_key == "" || corp_code == "" then
    (Except.ok [("재무제표", FSValue.message "데이터 없음 (API 키 없음 또는 corp_code 없음)")], [])
  else
    run_years fetch reprt_overrides (fs_div_order_of fs_mode) current_year
      ((List.range 6).map (fun i => current_year - 5 + i))

/-- The adoption test of lines 189-194, read off the response: success
status, a JSON array of rows that is non-empty, and both wanted columns
present (some row carries `account_nm` and some row carries
`thstrm_amount`). Exactly these responses are adopted and normalized. -/
def usable_response : FetchOutcome → Bool
  | .exn => false
  | .ok status lst =>
    match lst with
    | none => false
    | some l => status == some "000" && !l.isEmpty && hasAcctCol l && hasAmtCol l

/-- The responses the loop body of lines 179-203 passes over (`continue` or
the `else` branch): a fetch exception, a failed status/list/non-empty test,
or rows carrying neither wanted column. -/
def skipped_response : FetchOutcome → Bool
  | .exn => true
  | .ok status lst =>
    match lst with
    | none => true
    | some l =>
      !(status == some "000" && !l.isEmpty) || (!hasAcctCol l && !hasAmtCol l)

/-- A source whose every response is adopted: one row with both fields, the
amount carrying a thousands separator. -/
def fetchAdoptFirst : String → String → FetchOutcome := fun _ _ =>
  FetchOutcome.ok (some "000") (some [⟨some "자산총계", some "1,000"⟩])

/-- A source whose every response fails the status test (`status = "013"`,
no `list` field): every candidate is attempted and none is adopted. -/
def fetchNeverUsable : String → String → FetchOutcome := fun _ _ =>
  FetchOutcome.ok (some "013") none

/-- `fetchNeverUsable` with the year argument of the outer resolver. -/
def fetchNeverUsable3 : Nat → String → String → FetchOutcome := fun _ _ _ =>
  FetchOutcome.ok (some "013") none

/-- `fetchAdoptFirst` with the year argument of the outer resolver. -/
def fetchAdoptFirst3 : Nat → String → String → FetchOutcome := fun _ _ _ =>
  FetchOutcome.ok (some "000") (some [⟨some "자산총계", some "1,000"⟩])

/-- A successful response whose rows carry each wanted field in some row but
never both in the same row. -/
def splitFieldsResponse : FetchOutcome :=
  FetchOutcome.ok (some "000") (some [⟨some "a", none⟩, ⟨none, some "1"⟩])

/-- A successful response whose rows carry only the account-name field. -/
def acctOnlyResponse : FetchOutcome :=
  FetchOutcome.ok (some "000") (some [⟨some "자산총계", none⟩])

/-! ## Helper lemmas -/

/-- `dropWhile` is idempotent. -/
theorem dropWhile_dropWhile {α} (p : α → Bool) (l : List α) :
    (l.dropWhile p).dropWhile p = l.dropWhile p := by
  induction l with
  | nil => rfl
  | cons a t ih =>
    by_cases h : p a = true
    · simp [List.dropWhile_cons, h, ih]
    · simp [List.dropWhile_cons, h]

/-- The head surviving `dropWhile` fails the predicate. -/
theorem dropWhile_head_false {α} (p : α → Bool) (l : List α) (a : α) (t : List α)
    (h : l.dropWhile p = a :: t) : p a = false := by
  induction l with
  | nil => simp [List.dropWhile] at h
  | cons b r ih =>
    by_cases hb : p b = true
    · rw [List.dropWhile_cons, if_pos hb] at h
      exact ih h
    · rw [List.dropWhile_cons, if_neg hb] at h
      obtain ⟨rfl, rfl⟩ := List.cons.injEq .. ▸ h
      simpa using hb

/-- An element of `dropWhile`'s result is an element of the list. -/
theorem mem_of_mem_dropWhileP {α} (p : α → Bool) (a : α) (l : List α)
    (h : a ∈ l.dropWhile p) : a ∈ l := by
  induction l with
  | nil => simp [List.dropWhile] at h
  | cons b t ih =>
    rw [List.dropWhile_cons] at h
    by_cases hb : p b = true
    · rw [if_pos hb] at h
      exact List.mem_cons_of_mem _ (ih h)
    · rwa [if_neg hb] at h

/-- Trimming from the right end only removes a suffix: the original list is
the trimmed list followed by what was dropped. -/
theorem eq_stripRight_append {α} (p : α → Bool) (a : List α) :
    ∃ d, a = (a.reverse.dropWhile p).reverse ++ d := by
  refine ⟨(a.reverse.takeWhile p).reverse, ?_⟩
  calc a = a.reverse.reverse := (List.reverse_reverse a).symm
    _ = (a.reverse.takeWhile p ++ a.reverse.dropWhile p).reverse := by
        rw [List.takeWhile_append_dropWhile]
    _ = (a.reverse.dropWhile p).reverse ++ (a.reverse.takeWhile p).reverse := by
        rw [List.reverse_append]

/-- A stripped character list has no leading whitespace left. -/
theorem pyStripL_dropWhile (l : List Char) :
    (pyStripL l).dropWhile pyIsSpace = pyStripL l := by
  rcases hb : pyStripL l with _ | ⟨x, t⟩
  · rfl
  · obtain ⟨d, hd⟩ := eq_stripRight_append pyIsSpace (l.dropWhile pyIsSpace)
    rw [show ((l.dropWhile pyIsSpace).reverse.dropWhile pyIsSpace).reverse = pyStripL l from rfl,
      hb] at hd
    have hx : pyIsSpace x = false :=
      dropWhile_head_false pyIsSpace l x (t ++ d) (by simpa using hd)
    rw [List.dropWhile_cons, if_neg (by simp [hx])]

/-- Stripping is idempotent on character lists. -/
theorem pyStripL_idem (l : List Char) : pyStripL (pyStripL l) = pyStripL l := by
  have h2 : (pyStripL l).reverse.dropWhile pyIsSpace = (pyStripL l).reverse := by
    simp only [pyStripL, List.reverse_reverse]
    exact dropWhile_dropWhile _ _
  calc pyStripL (pyStripL l)
      = (((pyStripL l).dropWhile pyIsSpace).reverse.dropWhile pyIsSpace).reverse := rfl
    _ = ((pyStripL l).reverse.dropWhile pyIsSpace).reverse := by rw [pyStripL_dropWhile]
    _ = (pyStripL l).reverse.reverse := by rw [h2]
    _ = pyStripL l := List.reverse_reverse _

/-- An element of a stripped list is an element of the original list. -/
theorem mem_of_mem_pyStripL (c : Char) (l : List Char) (h : c ∈ pyStripL l) :
    c ∈ l := by
  unfold pyStripL at h
  rw [List.mem_reverse] at h
  have h1 := mem_of_mem_dropWhileP pyIsSpace c _ h
  rw [List.mem_reverse] at h1
  exact mem_of_mem_dropWhileP pyIsSpace c _ h1

/-- `str.strip()` is idempotent. -/
theorem pyStrip_idem (s : String) : pyStrip (pyStrip s) = pyStrip s :=
  congrArg String.mk (pyStripL_idem s.data)

/-- No comma survives `removeCommas`. -/
theorem removeCommas_no_comma (s : String) : ',' ∉ (removeCommas s).data := by
  show ',' ∉ s.data.filter (fun c => c != ',')
  intro h
  have := (List.mem_filter.mp h).2
  simp at this

/-- Filtering out commas from a comma-free list changes nothing. -/
theorem filter_ne_comma_eq_self (l : List Char) (h : ',' ∉ l) :
    l.filter (fun c => c != ',') = l := by
  apply List.filter_eq_self.mpr
  intro a ha
  simp only [bne_iff_ne, ne_eq, decide_eq_true_eq]
  intro hc
  exact h (hc ▸ ha)

/-- A normalized amount has no comma. -/
theorem normalize_amount_no_comma (s : String) :
    ',' ∉ (normalize_amount s).data := fun h =>
  removeCommas_no_comma s (mem_of_mem_pyStripL ',' (removeCommas s).data h)

/-- Removing commas from a normalized amount changes nothing. -/
theorem removeCommas_normalize_amount (s : String) :
    removeCommas (normalize_amount s) = normalize_amount s := by
  have h := filter_ne_comma_eq_self (normalize_amount s).data (normalize_amount_no_comma s)
  calc removeCommas (normalize_amount s)
      = String.mk ((normalize_amount s).data.filter (fun c => c != ',')) := rfl
    _ = String.mk (normalize_amount s).data := by rw [h]
    _ = normalize_amount s := by cases normalize_amount s with | _ d => rfl

/-- Unfolding equation for `run_candidates` on a non-empty candidate list. -/
theorem run_candidates_cons (fetch : String → String → FetchOutcome)
    (d c : String) (tl : List (String × String)) :
    run_candidates fetch ((d, c) :: tl) =
      match handle_response (fetch d c) with
      | .skip =>
        ((run_candidates fetch tl).1, (d, c) :: (run_candidates fetch tl).2)
      | .adopt rows => (Except.ok (some rows), [(d, c)])
      | .keyError => (Except.error (), [(d, c)]) := rfl

/-- The calls actually made are an initial segment of the candidate list. -/
theorem run_candidates_calls_extend (fetch : String → String → FetchOutcome)
    (cands : List (String × String)) :
    ∃ t, (run_candidates fetch cands).2 ++ t = cands := by
  induction cands with
  | nil => exact ⟨[], rfl⟩
  | cons hd tl ih =>
    obtain ⟨d, c⟩ := hd
    obtain ⟨t, ht⟩ := ih
    cases hstep : handle_response (fetch d c) with
    | skip =>
      refine ⟨t, ?_⟩
      simp [run_candidates_cons, hstep, ht]
    | adopt rows => exact ⟨tl, by simp [run_candidates_cons, hstep]⟩
    | keyError => exact ⟨tl, by simp [run_candidates_cons, hstep]⟩

/-- When no candidate is adopted and none errors, every candidate was
fetched. -/
theorem run_candidates_exhaust (fetch : String → String → FetchOutcome)
    (cands : List (String × String)) :
    (run_candidates fetch cands).1 = Except.ok none →
    (run_candidates fetch cands).2 = cands := by
  induction cands with
  | nil => intro _; rfl
  | cons hd tl ih =>
    obtain ⟨d, c⟩ := hd
    intro h
    cases hstep : handle_response (fetch d c) with
    | skip =>
      have h2 : (run_candidates fetch tl).1 = Except.ok none := by
        simpa [run_candidates_cons, hstep] using h
      simp [run_candidates_cons, hstep, ih h2]
    | adopt rows => simp [run_candidates_cons, hstep] at h
    | keyError => simp [run_candidates_cons, hstep] at h

/-- The candidate sequence for a non-empty scope order: all first-scope
pairs, then the candidates of the remaining scopes. -/
theorem candidates_cons (d0 : String) (rest codes : List String) :
    candidates (d0 :: rest) codes
      = codes.map (fun c => (d0, c)) ++ candidates rest codes := by
  simp [candidates]

/-- The candidate sequence for a single report code: one pair per scope. -/
theorem candidates_singleton (fs_div_order : List String) (rt : String) :
    candidates fs_div_order [rt] = fs_div_order.map (fun d => (d, rt)) := by
  induction fs_div_order with
  | nil => rfl
  | cons d t ih => simp [candidates] at ih ⊢; exact ih

/-- An override entry for the year makes its code the only candidate
(lines 163-164). -/
theorem reprt_codes_override (reprt_overrides : List (Nat × String))
    (current_year year : Nat) (rt : String)
    (hov : reprt_overrides.lookup year = some rt) :
    reprt_codes_for reprt_overrides current_year year = [rt] := by
  unfold reprt_codes_for
  rw [hov]

/-- A response is passed over exactly when `skipped_response` says so. -/
theorem handle_response_skip_iff (o : FetchOutcome) :
    handle_response o = StepResult.skip ↔ skipped_response o = true := by
  cases o with
  | exn => simp [handle_response, skipped_response]
  | ok status lst =>
    cases lst with
    | none => simp [handle_response, skipped_response]
    | some l =>
      simp only [handle_response, skipped_response]
      cases hc : (status == some "000" && !l.isEmpty) with
      | false => simp [hc]
      | true =>
        cases ha : hasAcctCol l <;> cases hm : hasAmtCol l <;>
          simp [hc, ha, hm]

/-- A response is adopted (with some normalized rows) exactly when
`usable_response` says so. -/
theorem handle_response_adopt_iff (o : FetchOutcome) :
    (∃ rows, handle_response o = StepResult.adopt rows) ↔
      usable_response o = true := by
  cases o with
  | exn => simp [handle_response, usable_response]
  | ok status lst =>
    cases lst with
    | none => simp [handle_response, usable_response]
    | some l =>
      simp only [handle_response, usable_response]
      cases hc : (status == some "000" && !l.isEmpty) with
      | false => simp [hc]
      | true =>
        cases ha : hasAcctCol l <;> cases hm : hasAmtCol l <;>
          simp [hc, ha, hm]

/-- Adopted rows are always the image of raw rows under the normalization of
lines 196-197. -/
theorem handle_response_adopt_shape (o : FetchOutcome)
    (rows : List (String × String))
    (h : handle_response o = StepResult.adopt rows) :
    ∃ l : List RawRow, rows = l.map normRow := by
  cases o with
  | exn => simp [handle_response] at h
  | ok status lst =>
    cases lst with
    | none => simp [handle_response] at h
    | some l =>
      simp only [handle_response] at h
      cases hc : (status == some "000" && !l.isEmpty) with
      | false => simp [hc] at h
      | true =>
        cases ha : hasAcctCol l <;> cases hm : hasAmtCol l <;>
          simp [hc, ha, hm] at h
        exact ⟨l, h.symm⟩

/-- Adoption by the candidate loop yields rows of normalized shape. -/
theorem run_candidates_adopt_shape (fetch : String → String → FetchOutcome)
    (cands : List (String × String)) (rows : List (String × String))
    (h : (run_candidates fetch cands).1 = Except.ok (some rows)) :
    ∃ l : List RawRow, rows = l.map normRow := by
  induction cands with
  | nil => simp [run_candidates] at h
  | cons hd tl ih =>
    obtain ⟨d, c⟩ := hd
    cases hstep : handle_response (fetch d c) with
    | skip => exact ih (by simpa [run_candidates_cons, hstep] using h)
    | adopt rows2 =>
      have hr : rows2 = rows := by
        simpa [run_candidates_cons, hstep] using h
      exact hr ▸ handle_response_adopt_shape _ _ hstep
    | keyError => simp [run_candidates_cons, hstep] at h

/-! ## Claims -/

/-- Claim C2: with no override entry for the year, the report-code candidate
list is exactly Annual, HalfYear, Q1, Q3 (11011, 11012, 11013, 11014) for a
past year, and exactly Q3, Q1, HalfYear, Annual (11014, 11013, 11012, 11011)
for the current year. -/
theorem reprt_codes_default_order (reprt_overrides : List (Nat × String))
    (current_year year : Nat)
    (hno : reprt_overrides.lookup year = none) :
    (year < current_year →
      reprt_codes_for reprt_overrides current_year year
        = ["11011", "11012", "11013", "11014"]) ∧
    (year = current_year →
      reprt_codes_for reprt_overrides current_year year
        = ["11014", "11013", "11012", "11011"]) := by
  unfold reprt_codes_for
  rw [hno]
  constructor
  · intro h
    simp [h]
  · intro h
    have : ¬ year < current_year := by omega
    simp [this]

/-- Witness for C2 at a concrete input: year 3, current year 5, an override
map with no entry for year 3. -/
theorem reprt_codes_default_order_witness :
    (3 < 5 → reprt_codes_for [(1, "11012")] 5 3 = ["11011", "11012", "11013", "11014"]) ∧
    (3 = 5 → reprt_codes_for [(1, "11012")] 5 3 = ["11014", "11013", "11012", "11011"]) :=
  reprt_codes_default_order [(1, "11012")] 5 3 (by rfl)

/-- Claim C9: the amount normalization of line 197 (strip thousands
separators, then trim whitespace) is idempotent. -/
theorem normalize_amount_idempotent (s : String) :
    normalize_amount (normalize_amount s) = normalize_amount s := by
  show pyStrip (removeCommas (normalize_amount s)) = normalize_amount s
  rw [removeCommas_normalize_amount]
  exact pyStrip_idem _

/-- Claim C10: any `fs_mode` other than the three recognized non-default
values falls to the final `else` of lines 151-159 and silently yields the
scope order CFS then OFS, identical to the default mode `AUTO_CFS_OFS`. -/
theorem fs_mode_unrecognized_default (fs_mode : String)
    (h1 : fs_mode ≠ "CFS_ONLY") (h2 : fs_mode ≠ "OFS_ONLY")
    (h3 : fs_mode ≠ "AUTO_OFS_CFS") :
    fs_div_order_of fs_mode = ["CFS", "OFS"] ∧
    fs_div_order_of fs_mode = fs_div_order_of "AUTO_CFS_OFS" := by
  unfold fs_div_order_of
  simp [h1, h2, h3]

/-- Witness for C10 at a concrete invalid mode string. -/
theorem fs_mode_unrecognized_default_witness :
    fs_div_order_of "NOT_A_MODE" = ["CFS", "OFS"] ∧
    fs_div_order_of "NOT_A_MODE" = fs_div_order_of "AUTO_CFS_OFS" :=
  fs_mode_unrecognized_default "NOT_A_MODE" (by decide) (by decide) (by decide)

/-- Claim C1: short-circuit per year. Once a candidate combination is
adopted, the resolution of that year is unchanged by any suffix of remaining
combinations: the result and the list of Disclosure Source calls are those
of the already-processed candidates, so no further call is made. -/
theorem run_candidates_short_circuit (fetch : String → String → FetchOutcome)
    (cands extra : List (String × String)) (rows : List (String × String))
    (h : (run_candidates fetch cands).1 = Except.ok (some rows)) :
    run_candidates fetch (cands ++ extra) = run_candidates fetch cands := by
  induction cands with
  | nil => simp [run_candidates] at h
  | cons hd tl ih =>
    obtain ⟨d, c⟩ := hd
    cases hstep : handle_response (fetch d c) with
    | skip =>
      have h2 : (run_candidates fetch tl).1 = Except.ok (some rows) := by
        simpa [run_candidates_cons, hstep] using h
      simp [run_candidates_cons, hstep, ih h2]
    | adopt rows2 => simp [run_candidates_cons, hstep]
    | keyError => simp [run_candidates_cons, hstep]

/-- Witness for C1: a source whose first response is adopted; appending two
further combinations changes neither the result nor the calls made. -/
theorem run_candidates_short_circuit_witness :
    run_candidates fetchAdoptFirst
        ([("CFS", "11011")] ++ [("CFS", "11012"), ("OFS", "11011")])
      = run_candidates fetchAdoptFirst [("CFS", "11011")] :=
  run_candidates_short_circuit fetchAdoptFirst [("CFS", "11011")]
    [("CFS", "11012"), ("OFS", "11011")] [("자산총계", "1000")] (by rfl)

/-- Claim C3: scope is the outer loop, for every scope order. With scope
order `d0 :: rest`, any call in the call sequence made under a scope other
than the first scope `d0` is preceded by a `d0`-call for every report code
of the year's candidate list (so with order `[CFS, OFS]` all `CFS` attempts
precede every `OFS` attempt, and with `[OFS, CFS]` the converse). -/
theorem scope_outer_loop (fetch : String → String → FetchOutcome)
    (d0 : String) (rest codes : List String) (i : Nat) (p : String × String)
    (hi : (run_candidates fetch (candidates (d0 :: rest) codes)).2.get? i
      = some p)
    (hlater : p.1 ≠ d0) :
    ∀ c ∈ codes, ∃ j, j < i ∧
      (run_candidates fetch (candidates (d0 :: rest) codes)).2.get? j
        = some (d0, c) := by
  intro c hc
  obtain ⟨t, ht⟩ :=
    run_candidates_calls_extend fetch (candidates (d0 :: rest) codes)
  obtain ⟨hilen, -⟩ := List.get?_eq_some.mp hi
  have hfull : (candidates (d0 :: rest) codes).get? i = some p := by
    rw [← ht, List.get?_append hilen]
    exact hi
  have hge : codes.length ≤ i := by
    by_contra hlt
    push_neg at hlt
    rw [candidates_cons,
      List.get?_append (by simpa using hlt), List.get?_map] at hfull
    rcases hcodes : codes.get? i with _ | c0
    · rw [hcodes] at hfull
      simp at hfull
    · rw [hcodes] at hfull
      have hp : (d0, c0) = p := by exact Option.some_inj.mp hfull
      rw [← hp] at hlater
      simp at hlater
  obtain ⟨j, hj⟩ := List.mem_iff_get?.mp hc
  obtain ⟨hjlen, -⟩ := List.get?_eq_some.mp hj
  have hji : j < i := lt_of_lt_of_le hjlen hge
  refine ⟨j, hji, ?_⟩
  have hj2 : (candidates (d0 :: rest) codes).get? j = some (d0, c) := by
    rw [candidates_cons,
      List.get?_append (by simpa using hjlen), List.get?_map, hj]
    rfl
  rw [← ht, List.get?_append (lt_trans hji hilen)] at hj2
  exact hj2

/-- Witness for C3 with the `AUTO_OFS_CFS` scope order `[OFS, CFS]`: a
source that never yields usable data calls both candidates of a one-code
list; the second call is under the later scope `CFS`, and the first-scope
`OFS` call for the code precedes it. -/
theorem scope_outer_loop_witness :
    ∃ j, j < 1 ∧
      (run_candidates fetchNeverUsable
        (candidates ("OFS" :: ["CFS"]) ["11011"])).2.get? j
        = some ("OFS", "11011") :=
  scope_outer_loop fetchNeverUsable "OFS" ["CFS"] ["11011"] 1 ("CFS", "11011")
    (by rfl) (by decide) "11011" (List.mem_singleton.mpr rfl)

/-- Counterexample to claim C4 as stated. With override `{2025: "11011"}`,
scope order `["CFS", "OFS"]` and a source whose first response is adopted,
the resolver makes exactly one call in total — one under `CFS` and none at
all under `OFS` — so "exactly one attempt per scope in the configured scope
order" is false: the second configured scope gets zero attempts. -/
theorem override_single_attempt_counterexample :
    (try_one_year fetchAdoptFirst3 [(2025, "11011")] ["CFS", "OFS"] 2025 2025).2
      = [("CFS", "11011")] := by rfl

/-- Claim C4 as amended: with an override entry `rt` for the year, the calls
made are an initial segment of one `rt`-attempt per configured scope in
scope order — so at most one attempt per scope, never any other report type
— and when no attempt is adopted and none raises, there is exactly one
attempt per scope. -/
theorem override_only_rt_attempted (fetch : Nat → String → String → FetchOutcome)
    (reprt_overrides : List (Nat × String)) (fs_div_order : List String)
    (current_year year : Nat) (rt : String)
    (hov : reprt_overrides.lookup year = some rt) :
    (∃ t, (try_one_year fetch reprt_overrides fs_div_order current_year year).2 ++ t
        = fs_div_order.map (fun d => (d, rt))) ∧
    (∀ p ∈ (try_one_year fetch reprt_overrides fs_div_order current_year year).2,
      p.2 = rt) ∧
    ((try_one_year fetch reprt_overrides fs_div_order current_year year).1
        = Except.ok none →
      (try_one_year fetch reprt_overrides fs_div_order current_year year).2
        = fs_div_order.map (fun d => (d, rt))) := by
  have hcand : candidates fs_div_order (reprt_codes_for reprt_overrides current_year year)
      = fs_div_order.map (fun d => (d, rt)) := by
    rw [reprt_codes_override _ _ _ _ hov, candidates_singleton]
  unfold try_one_year
  rw [hcand]
  refine ⟨run_candidates_calls_extend _ _, ?_, run_candidates_exhaust _ _⟩
  intro p hp
  obtain ⟨t, ht⟩ :=
    run_candidates_calls_extend (fetch year) (fs_div_order.map (fun d => (d, rt)))
  have hmem : p ∈ fs_div_order.map (fun d => (d, rt)) := by
    rw [← ht]
    exact List.mem_append_left _ hp
  obtain ⟨d, -, hd⟩ := List.mem_map.mp hmem
  rw [← hd]

/-- Witness for the amended C4: override `{7: "11012"}`, scope order
`["CFS", "OFS"]`, a source that never yields usable data. -/
theorem override_only_rt_attempted_witness :
    (∃ t, (try_one_year fetchNeverUsable3 [(7, "11012")] ["CFS", "OFS"] 7 7).2 ++ t
        = [("CFS", "11012"), ("OFS", "11012")]) ∧
    (∀ p ∈ (try_one_year fetchNeverUsable3 [(7, "11012")] ["CFS", "OFS"] 7 7).2,
      p.2 = "11012") ∧
    ((try_one_year fetchNeverUsable3 [(7, "11012")] ["CFS", "OFS"] 7 7).1
        = Except.ok none →
      (try_one_year fetchNeverUsable3 [(7, "11012")] ["CFS", "OFS"] 7 7).2
        = [("CFS", "11012"), ("OFS", "11012")]) :=
  override_only_rt_attempted fetchNeverUsable3 [(7, "11012")] ["CFS", "OFS"] 7 7
    "11012" rfl

/-- Counterexample to claim C5 as stated. `splitFieldsResponse` has no row
carrying both an account-name field and an amount field (the first row has
only `account_nm`, the second only `thstrm_amount`), yet the resolver adopts
it — the code only tests column presence across the whole frame
(lines 191-194), not per row — refuting "adopted iff at least one row has
both fields present". -/
theorem adoption_split_fields_counterexample :
    (run_candidates (fun _ _ => splitFieldsResponse) [("CFS", "11011")]).1
      = Except.ok (some [("a", "nan"), ("nan", "1")]) := by rfl

/-- Claim C5 as amended: a response is adopted iff it is the first in the
attempt order with success status `"000"`, a non-empty row list, and each of
the two wanted fields occurring in at least one row (not necessarily the
same row); earlier responses must all have been skippable (fetch error,
failed status/list/non-empty test, or neither field present) — a response
with exactly one of the two fields raises instead of being skipped. -/
theorem adoption_iff_first_usable (fetch : String → String → FetchOutcome)
    (cands : List (String × String)) :
    (∃ rows, (run_candidates fetch cands).1 = Except.ok (some rows)) ↔
    (∃ k p, cands.get? k = some p ∧ usable_response (fetch p.1 p.2) = true ∧
      ∀ j q, j < k → cands.get? j = some q →
        skipped_response (fetch q.1 q.2) = true) := by
  induction cands with
  | nil => simp [run_candidates]
  | cons hd tl ih =>
    obtain ⟨d, c⟩ := hd
    cases hstep : handle_response (fetch d c) with
    | adopt rows =>
      constructor
      · intro _
        refine ⟨0, (d, c), rfl, (handle_response_adopt_iff _).mp ⟨rows, hstep⟩, ?_⟩
        intro j q hj _
        omega
      · intro _
        exact ⟨rows, by simp [run_candidates_cons, hstep]⟩
    | keyError =>
      have hnu : usable_response (fetch d c) = false := by
        cases h : usable_response (fetch d c) with
        | false => rfl
        | true =>
          obtain ⟨rows, hr⟩ := (handle_response_adopt_iff _).mpr h
          rw [hstep] at hr
          cases hr
      have hns : skipped_response (fetch d c) = false := by
        cases h : skipped_response (fetch d c) with
        | false => rfl
        | true =>
          have h2 := (handle_response_skip_iff _).mpr h
          rw [hstep] at h2
          cases h2
      constructor
      · rintro ⟨rows, hr⟩
        simp [run_candidates_cons, hstep] at hr
      · rintro ⟨k, p, hk, hu, hall⟩
        cases k with
        | zero =>
          rw [List.get?_cons_zero] at hk
          have hp : (d, c) = p := Option.some_inj.mp hk
          rw [← hp] at hu
          rw [hnu] at hu
          cases hu
        | succ k2 =>
          have h0 := hall 0 (d, c) (Nat.succ_pos _) rfl
          rw [hns] at h0
          cases h0
    | skip =>
      have hs : skipped_response (fetch d c) = true :=
        (handle_response_skip_iff _).mp hstep
      have heq : (run_candidates fetch ((d, c) :: tl)).1
          = (run_candidates fetch tl).1 := by
        simp [run_candidates_cons, hstep]
      rw [heq, ih]
      constructor
      · rintro ⟨k, p, hk, hu, hall⟩
        refine ⟨k + 1, p, by simpa using hk, hu, ?_⟩
        intro j q hj hq
        cases j with
        | zero =>
          rw [List.get?_cons_zero] at hq
          rw [← Option.some_inj.mp hq]
          exact hs
        | succ j2 =>
          exact hall j2 q (by omega) (by simpa using hq)
      · rintro ⟨k, p, hk, hu, hall⟩
        cases k with
        | zero =>
          rw [List.get?_cons_zero] at hk
          rw [← Option.some_inj.mp hk] at hu
          obtain ⟨rows, hr⟩ := (handle_response_adopt_iff _).mpr hu
          rw [hstep] at hr
          cases hr
        | succ k2 =>
          refine ⟨k2, p, by simpa using hk, hu, ?_⟩
          intro j q hj hq
          exact hall (j + 1) q (by omega) (by simpa using hq)

/-- Claim C6 evaluated at its failing input: a source whose responses have
success status and rows carrying `account_nm` but never `thstrm_amount`.
The `if not cols: continue` guard of lines 192-194 passes (one wanted column
exists), and line 197 then reads the absent `thstrm_amount` column: the
`KeyError` is caught by no handler, so `get_financial_statements` raises to
its caller instead of yielding an empty result for the year. -/
theorem resolver_raises_on_one_column :
    (get_financial_statements "key" "00126380" [] "AUTO_CFS_OFS"
        (fun _ _ _ => acctOnlyResponse) 2025).1 = Except.error () := by rfl

/-- Counterexample to claim C7 as stated. With no API key, the result dict is
the single placeholder entry keyed `재무제표`: it holds no entry for any year
of the range (for example none keyed `"2025"`), so "returns Empty for every
year in the range" is false — though indeed no fetch is made. -/
theorem missing_key_single_message_counterexample :
    get_financial_statements "" "00126380" [] "AUTO_CFS_OFS" fetchNeverUsable3 2025
      = (Except.ok [("재무제표",
          FSValue.message "데이터 없음 (API 키 없음 또는 corp_code 없음)")], []) := by
  rfl

/-- Claim C7 as amended: with a missing (falsy) API key or company code, the
resolver immediately returns the single placeholder message entry — not a
per-year `Empty` sequence — and performs no Disclosure Source fetch at all,
for every override map, mode, source and current year. -/
theorem missing_credentials_no_fetch (api_key corp_code : String)
    (reprt_overrides : List (Nat × String)) (fs_mode : String)
    (fetch : Nat → String → String → FetchOutcome) (current_year : Nat)
    (h : api_key = "" ∨ corp_code = "") :
    get_financial_statements api_key corp_code reprt_overrides fs_mode fetch current_year
      = (Except.ok [("재무제표",
          FSValue.message "데이터 없음 (API 키 없음 또는 corp_code 없음)")], []) := by
  unfold get_financial_statements
  rcases h with h | h <;> simp [h]

/-- Witness for the amended C7 at a concrete input: empty API key. -/
theorem missing_credentials_no_fetch_witness :
    get_financial_statements "" "00126380" [(2025, "11014")] "OFS_ONLY"
        fetchAdoptFirst3 2025
      = (Except.ok [("재무제표",
          FSValue.message "데이터 없음 (API 키 없음 또는 corp_code 없음)")], []) :=
  missing_credentials_no_fetch "" "00126380" [(2025, "11014")] "OFS_ONLY"
    fetchAdoptFirst3 2025 (Or.inl rfl)

/-- Claim C8: every row of an adopted result has a trimmed account name (a
further trim changes nothing) and an amount string with no thousands
separator left and no surrounding whitespace; the amounts stay `String`s —
the resolver never converts them to a numeric type. -/
theorem adopted_rows_normalized (fetch : String → String → FetchOutcome)
    (cands : List (String × String)) (rows : List (String × String))
    (h : (run_candidates fetch cands).1 = Except.ok (some rows)) :
    ∀ p ∈ rows, pyStrip p.1 = p.1 ∧ ',' ∉ p.2.data ∧ pyStrip p.2 = p.2 := by
  obtain ⟨l, rfl⟩ := run_candidates_adopt_shape fetch cands rows h
  intro p hp
  obtain ⟨r, -, hr⟩ := List.mem_map.mp hp
  subst hr
  refine ⟨pyStrip_idem _, normalize_amount_no_comma _, ?_⟩
  show pyStrip (pyStrip (removeCommas _)) = _
  exact pyStrip_idem _

/-- Witness for C8: the adopted row of `fetchAdoptFirst` (name `자산총계`,
raw amount `"1,000"`) is normalized to `("자산총계", "1000")`. -/
theorem adopted_rows_normalized_witness :
    pyStrip "자산총계" = "자산총계" ∧ ',' ∉ "1000".data ∧ pyStrip "1000" = "1000" :=
  adopted_rows_normalized fetchAdoptFirst [("CFS", "11011")]
    [("자산총계", "1000")] (by rfl) ("자산총계", "1000") (by simp)
